import Mathlib

/-!
Shallow embedding of the Rusty multiplayer snake server (src/src of the
repository) in Lean 4, together with theorems settling the frozen claims
about it.

The embedding follows the Rust sources:
* lib.rs        : Point, Direction, GameOverReason, GameState, GameError
* game.rs       : Game, Body, tick, generate_new_food, into_game_state
* requested_direction.rs : the per-player direction vote map
* game_manager.rs / game_task.rs : the library actor path (membership checks)
* task.rs / service.rs : the RPC service actor path (no membership checks)

Rust HashMap and HashSet values are modelled as association lists / lists;
a Rust function that can panic is modelled as returning Option, with none
standing for the panic. Randomness (rand::thread_rng) is modelled by an
explicit stream of drawn points passed as a function argument.
-/

namespace Rusty

/-- Integer grid point, lib.rs Point (i32 coordinates modelled as Int). -/
structure Point where
  x : Int
  y : Int
deriving DecidableEq, Repr, Inhabited

/-- Movement direction, types.rs Direction. -/
inductive Direction where
  | north
  | south
  | east
  | west
deriving DecidableEq, Repr, Fintype

/-- Point.add_direction from lib.rs: offset by one cell, north decreases y. -/
def Point.add_direction (p : Point) (d : Direction) : Point :=
  match d with
  | Direction.north => Point.mk p.x (p.y - 1)
  | Direction.south => Point.mk p.x (p.y + 1)
  | Direction.east => Point.mk (p.x + 1) p.y
  | Direction.west => Point.mk (p.x - 1) p.y

/-- Reason a match ended, lib.rs GameOverReason. -/
inductive GameOverReason where
  | outOfBounds
  | collideWithSelf
  | winner
deriving DecidableEq, Repr

/-- Error kinds of the library path, lib.rs GameError (has Internal). -/
inductive GameError where
  | invalidUser
  | invalidGame
  | internal
deriving DecidableEq, Repr

/-- Error kinds of the RPC service path, types.rs GameError.
Note this enum has no Internal variant at all. -/
inductive GameErrorSvc where
  | invalidUser
  | invalidGame
deriving DecidableEq, Repr, Fintype

/-- Rust Result of an operation, ok value or a GameError. -/
inductive GameResult (α : Type) where
  | ok (value : α)
  | err (error : GameError)
deriving DecidableEq, Repr

/-! ## requested_direction.rs: the vote map

The Rust struct holds a HashMap from user id to Direction. We model it as
an association list; RequestedDirection.add_direction with insert-overwrite
semantics keeps at most one entry per key when the keys are distinct. -/

/-- RequestedDirection.add_direction: HashMap::insert overwrites the value of
an existing key, otherwise appends a fresh entry. -/
def add_direction (m : List (String × Direction)) (u : String) (d : Direction) :
    List (String × Direction) :=
  if m.any (fun e => e.1 == u) then
    m.map (fun e => if e.1 == u then (e.1, d) else e)
  else
    m ++ [(u, d)]

/-- Repeated voting of one user before a tick: every vote goes through
RequestedDirection.add_direction. -/
def addMany (m : List (String × Direction)) (u : String) (ds : List Direction) :
    List (String × Direction) :=
  ds.foldl (fun acc d => add_direction acc u d) m

/-- Value stored for a user in the vote map. -/
def lookupDir (m : List (String × Direction)) (u : String) : Option Direction :=
  (m.find? (fun e => e.1 == u)).map (fun e => e.2)

/-- Number of entries recorded for one key. -/
def countKey (m : List (String × Direction)) (u : String) : Nat :=
  m.countP (fun e => e.1 == u)

/-- Number of voters currently requesting direction d. -/
def countVoters (m : List (String × Direction)) (d : Direction) : Nat :=
  m.countP (fun e => e.2 == d)

/-- One step of the tally loop of RequestedDirection.calculate_direction:
directions_count.entry(direction).or_insert(1) += 1. An absent direction is
inserted with 1 and immediately bumped to 2; a present one gains 1. -/
def bump_tally (t : List (Direction × Nat)) (d : Direction) : List (Direction × Nat) :=
  if t.any (fun e => e.1 == d) then
    t.map (fun e => if e.1 == d then (e.1, e.2 + 1) else e)
  else
    t ++ [(d, 2)]

/-- The tally loop over all vote entries. -/
def tally_votes (m : List (String × Direction)) : List (Direction × Nat) :=
  m.foldl (fun t e => bump_tally t e.2) []

/-- Rust Iterator::max_by keeps the last of several equal maxima: the
accumulator is replaced whenever the next count is greater or equal. -/
def max_by_go (d : Direction) (n : Nat) : List (Direction × Nat) → Direction
  | [] => d
  | e :: rest => if n ≤ e.2 then max_by_go e.1 e.2 rest else max_by_go d n rest

/-- directions_count.iter().max_by(..).map(|(k, _v)| k): none on an empty
tally, else the last maximum of the counts. -/
def max_by_last : List (Direction × Nat) → Option Direction
  | [] => none
  | e :: rest => some (max_by_go e.1 e.2 rest)

/-- RequestedDirection.calculate_direction: tally the votes, then take the
direction with the maximal count (none when there are no votes). -/
def calculate_direction (m : List (String × Direction)) : Option Direction :=
  max_by_last (tally_votes m)

/-! ## game.rs: Body and Game -/

/-- The snake, game.rs Body: current travel direction and the cells,
head first (VecDeque front = head). -/
structure Body where
  direction : Direction
  body : List Point
deriving DecidableEq, Repr

/-- Body.new: heading east, three cells at the given row. -/
def Body.new (startingY : Int) : Body :=
  Body.mk Direction.east [Point.mk 2 startingY, Point.mk 1 startingY, Point.mk 0 startingY]

/-- Body.move_in_direction: push the new head to the front; keep the tail
exactly when the new head overlaps the food. Returns the updated body and
the grew flag. The Rust code panics (front().expect) on an empty body,
modelled by none. -/
def Body.move_in_direction (b : Body) (direction : Direction) (food : Point) :
    Option (Body × Bool) :=
  match b.body with
  | [] => none
  | hd :: tl =>
    let newPoint := hd.add_direction direction
    let foodOverlaps := newPoint == food
    let pushed := newPoint :: hd :: tl
    let newBody := if foodOverlaps then pushed else pushed.dropLast
    some (Body.mk direction newBody, foodOverlaps)

/-- Body.is_collide_with_self: the head cell occurs again in the rest of the
body. The Rust code unwraps the first element and so panics on an empty
body; that branch is unreachable where the function is called (directly
after a move) and is modelled as false. -/
def Body.is_collide_with_self (b : Body) : Bool :=
  match b.body with
  | [] => false
  | hd :: tl => tl.contains hd

/-- Snapshot of a match, lib.rs GameState. -/
structure GameState where
  height : Int
  width : Int
  tick : Nat
  game_over_reason : Option GameOverReason
  direction : Direction
  num_users : Nat
  body : List Point
  food : Point
deriving DecidableEq, Repr

/-- game.rs GameStateCache: last version for which a snapshot was produced
and that snapshot. -/
structure GameStateCache where
  last_returned_game_state_version : Nat
  last_returned_game_state : Option GameState
deriving DecidableEq, Repr

/-- game.rs Game: one match. -/
structure Game where
  height : Int
  width : Int
  food : Point
  rusty : Body
  game_over : Option GameOverReason
  epoch : Nat
  requested_directions : List (String × Direction)
  users : List String
  game_state_version : Nat
  game_state_cache : GameStateCache
deriving DecidableEq, Repr

/-- Game.new: food at board center, body of length 3 on the middle row,
version counter 1, cache at version 0 with no stored snapshot. -/
def Game.new (height width : Int) : Game :=
  Game.mk height width (Point.mk (width / 2) (height / 2)) (Body.new (height / 2))
    none 0 [] [] 1 (GameStateCache.mk 0 none)

/-- Game.add_user: HashSet::insert, true when the user was not yet present. -/
def Game.add_user (g : Game) (u : String) : Game × Bool :=
  if g.users.contains u then (g, false)
  else (Game.mk g.height g.width g.food g.rusty g.game_over g.epoch
    g.requested_directions (g.users ++ [u]) g.game_state_version g.game_state_cache, true)

/-- Game.user_has_joined_game. -/
def Game.user_has_joined_game (g : Game) (u : String) : Bool :=
  g.users.contains u

/-- Game.add_user_direction: record or overwrite the vote of one user. -/
def Game.add_user_direction (g : Game) (u : String) (d : Direction) : Game :=
  { g with requested_directions := add_direction g.requested_directions u d }

/-- Direction applied in a tick: the vote winner when there is one, else the
current travel direction of the body (game.rs, tick lines 74-77). -/
def Game.tick_direction (g : Game) : Direction :=
  (calculate_direction g.requested_directions).getD g.rusty.direction

/-- The retry loop of Game.generate_new_food. The point under test at
retry count r is draws r. While it is occupied by the body: draw the next
point, bump the retry counter and panic (none) when the counter exceeds the
bound, before the next containment test. The fuel argument only serves Lean
termination; callers pass enough for the bound to fire first. -/
def food_search (body : List Point) (draws : Nat → Point) (bound : Int) :
    Nat → Nat → Option Point
  | retries, fuel =>
    if (body.contains (draws retries) : Bool) then
      match fuel with
      | 0 => none
      | fuel2 + 1 =>
        if bound < (retries : Int) + 1 then none
        else food_search body draws bound (retries + 1) fuel2
    else some (draws retries)

/-- Game.generate_new_food: draw random points until one misses the body,
with the retry bound height * width * 2; exceeding it panics (none). -/
def Game.generate_new_food (g : Game) (draws : Nat → Point) : Option Game :=
  let bound : Int := g.height * g.width * 2
  (food_search g.rusty.body draws bound 0 (bound.toNat + 1)).map
    (fun p => { g with food := p })

/-- Game.tick (game.rs lines 65-106). The epoch and snapshot version are
incremented first; if the game is already over the stored reason is returned
without simulating. Otherwise: resolve the direction, move the body, check
winner, check out of bounds, check self collision (each check assigning
game_over), and finally place new food when the body grew. Returns the
updated game and the value tick returns (the current game_over). none
models a panic (empty body or food placement giving up). -/
def Game.tick (g : Game) (maxSpaces : Nat) (draws : Nat → Point) :
    Option (Game × Option GameOverReason) :=
  let g1 : Game := { g with epoch := g.epoch + 1, game_state_version := g.game_state_version + 1 }
  match g.game_over with
  | some r => some (g1, some r)
  | none =>
    let dir := g.tick_direction
    match Body.move_in_direction g.rusty dir g.food with
    | none => none
    | some (rusty2, didGrow) =>
      let headPos := rusty2.body.headI
      let goWinner : Option GameOverReason :=
        if rusty2.body.length = maxSpaces then some GameOverReason.winner else none
      let goOob : Option GameOverReason :=
        if headPos.x < 0 ∨ headPos.y < 0 ∨ g.width ≤ headPos.x ∨ g.height ≤ headPos.y then
          some GameOverReason.outOfBounds
        else goWinner
      let goSelf : Option GameOverReason :=
        if rusty2.is_collide_with_self then some GameOverReason.collideWithSelf else goOob
      let g5 : Game := { g1 with rusty := rusty2, game_over := goSelf }
      if didGrow then (g5.generate_new_food draws).map (fun g6 => (g6, g6.game_over))
      else some (g5, g5.game_over)

/-- The snapshot Game.into_game_state builds when the cache does not apply. -/
def Game.freshSnapshot (g : Game) : GameState :=
  GameState.mk g.height g.width g.epoch g.game_over g.tick_direction
    g.requested_directions.length g.rusty.body g.food

/-- Game.into_game_state (game.rs lines 134-158): when the version is not
newer than the cached version, return the cached snapshot (whose unwrap
panics, modelled as none, when nothing was ever stored); otherwise build a
fresh snapshot. Note the Rust method takes an immutable reference and never
writes the cache. -/
def Game.into_game_state (g : Game) : Option GameState :=
  if g.game_state_version ≤ g.game_state_cache.last_returned_game_state_version then
    g.game_state_cache.last_returned_game_state
  else some g.freshSnapshot

/-! ## Reachable match states

For the snapshot cache claim we track every operation a Game object is
subjected to after Game.new: ticks, joins, vote updates and snapshot reads.
A read is a state operation too, because the claim asserts that reading
should update the cache (the Rust code never does). -/

/-- One command applied to a Game over its lifetime. -/
inductive GameOp where
  | tickCmd (maxSpaces : Nat) (draws : Nat → Point)
  | addUser (u : String)
  | addDirection (u : String) (d : Direction)
  | readState

/-- Effect of one command on the Game; none models a panic. Reading the
state has no effect on the Game because into_game_state takes an immutable
reference. -/
def applyOp (g : Game) : GameOp → Option Game
  | GameOp.tickCmd maxSpaces draws => (g.tick maxSpaces draws).map (fun pr => pr.1)
  | GameOp.addUser u => some (g.add_user u).1
  | GameOp.addDirection u d => some (g.add_user_direction u d)
  | GameOp.readState => (g.into_game_state).map (fun _ => g)

/-- Effect of a command sequence. -/
def applyOps (g : Game) : List GameOp → Option Game
  | [] => some g
  | op :: ops =>
    match applyOp g op with
    | none => none
    | some g2 => applyOps g2 ops

/-! ## game_manager.rs with the game_task.rs actor (library path)

The directory maps game ids to actors; each actor owns one Game. The
mailbox round-trip is modelled synchronously: the outcome records the
result sent back, how many commands were put into a mailbox, and the
directory afterwards. -/

/-- Reply of GameCommand::JoinGame, lib.rs JoinGameReply. -/
structure JoinGameReply where
  user_id : String
  width : Int
  height : Int
deriving DecidableEq, Repr

/-- Outcome of one directory operation: the reply, the number of mailbox
commands sent, and the directory (with its games) afterwards. -/
structure MgrOutcome (α : Type) where
  result : GameResult α
  sends : Nat
  dir : List (String × Game)
deriving DecidableEq, Repr

/-- Directory lookup, games.lock().await.get(game_id). -/
def lookupGame (d : List (String × Game)) (gameId : String) : Option Game :=
  (d.find? (fun e => e.1 == gameId)).map (fun e => e.2)

/-- Replace the state of one registered game. -/
def setGame (d : List (String × Game)) (gameId : String) (g : Game) :
    List (String × Game) :=
  d.map (fun e => if e.1 == gameId then (e.1, g) else e)

/-- GameManager.update_game with the GameTask::update_game handler
(game_manager.rs lines 101-130, game_task.rs lines 108-122): unknown game
id fails InvalidGame with no mailbox send; the actor replies InvalidUser
for a user that has not joined, before recording anything; otherwise it
records the vote and replies a snapshot. none models an actor panic. -/
def GameManager.update_game (d : List (String × Game)) (gameId userId : String)
    (direction : Direction) : Option (MgrOutcome GameState) :=
  match lookupGame d gameId with
  | none => some (MgrOutcome.mk (GameResult.err GameError.invalidGame) 0 d)
  | some g =>
    if g.user_has_joined_game userId then
      let g2 := g.add_user_direction userId direction
      match g2.into_game_state with
      | none => none
      | some st => some (MgrOutcome.mk (GameResult.ok st) 1 (setGame d gameId g2))
    else some (MgrOutcome.mk (GameResult.err GameError.invalidUser) 1 d)

/-- GameManager.game_status with GameTask::game_status (game_task.rs lines
96-106): unknown game id fails InvalidGame with no send; unknown user fails
InvalidUser; otherwise the current snapshot is returned, without mutation. -/
def GameManager.game_status (d : List (String × Game)) (gameId userId : String) :
    Option (MgrOutcome GameState) :=
  match lookupGame d gameId with
  | none => some (MgrOutcome.mk (GameResult.err GameError.invalidGame) 0 d)
  | some g =>
    if g.user_has_joined_game userId then
      match g.into_game_state with
      | none => none
      | some st => some (MgrOutcome.mk (GameResult.ok st) 1 d)
    else some (MgrOutcome.mk (GameResult.err GameError.invalidUser) 1 d)

/-- GameManager.start_game with GameTask::start_game (game_task.rs lines
137-167): unknown game id fails InvalidGame with no send; unknown user
fails InvalidUser; otherwise the tick producer is spawned (not part of the
Game state) and the reply is success. -/
def GameManager.start_game (d : List (String × Game)) (gameId userId : String) :
    Option (MgrOutcome Unit) :=
  match lookupGame d gameId with
  | none => some (MgrOutcome.mk (GameResult.err GameError.invalidGame) 0 d)
  | some g =>
    if g.user_has_joined_game userId then
      some (MgrOutcome.mk (GameResult.ok ()) 1 d)
    else some (MgrOutcome.mk (GameResult.err GameError.invalidUser) 1 d)

/-- GameManager.join_game with GameTask::join_game: unknown game id fails
InvalidGame with no send; otherwise a fresh player id (passed in, standing
for the generated Uuid) is added to the user set and the reply carries the
id and the board dimensions. -/
def GameManager.join_game (d : List (String × Game)) (gameId newUserId : String) :
    Option (MgrOutcome JoinGameReply) :=
  match lookupGame d gameId with
  | none => some (MgrOutcome.mk (GameResult.err GameError.invalidGame) 0 d)
  | some g =>
    let g2 := (g.add_user newUserId).1
    some (MgrOutcome.mk (GameResult.ok (JoinGameReply.mk newUserId g.width g.height)) 1
      (setGame d gameId g2))

/-! ## task.rs actor handlers (RPC service path)

These handlers reply over a channel of plain GameState values; there is no
error variant in the reply type and no membership check at all (the Rust
code carries TODO comments for the missing check). -/

/-- GameTask::update_game of task.rs (lines 113-122): record the vote of
whoever sent the request and reply the current snapshot. The user id is
never checked against the joined set. -/
def Task.update_game (g : Game) (userId : String) (direction : Direction) :
    Option (GameState × Game) :=
  let g2 := g.add_user_direction userId direction
  (g2.into_game_state).map (fun st => (st, g2))

/-- GameTask::game_status of task.rs (lines 104-111): reply the snapshot;
the user id of the request is ignored. -/
def Task.game_status (g : Game) (_userId : String) : Option GameState :=
  g.into_game_state

/-- RustyService.update_game_internal (service.rs lines 121-142): directory
miss fails InvalidGame; otherwise the command is sent and the oneshot reply
is unwrapped. channelReply none models the reply channel closing because
the actor exited; the unwrap then panics the request handler, modelled by
the outer none. -/
def RustyService.update_game_internal (games : List (String × Game))
    (gameId userId : String) (direction : Direction) (channelReply : Option GameState) :
    Option (Except GameErrorSvc GameState) :=
  match lookupGame games gameId with
  | none => some (Except.error GameErrorSvc.invalidGame)
  | some _ =>
    let _ := (userId, direction)
    match channelReply with
    | some st => some (Except.ok st)
    | none => none

/-! ## Concrete values used by witnesses -/

/-- Draw stream returning the origin forever. -/
def drawsZero : Nat → Point := fun _ => Point.mk 0 0

/-- Draw stream returning the cell (2, 2) forever. -/
def drawsBody : Nat → Point := fun _ => Point.mk 2 2

def uAlice : String := "alice"

def uBob : String := "bob"

def gid1 : String := "game-1"

def gidMissing : String := "missing"

/-- Vote entries with a strict majority for north. -/
def votesSample : List (String × Direction) :=
  [("a", Direction.north), ("b", Direction.north), ("c", Direction.south)]

/-- A fresh 4 x 4 match. -/
def gNew44 : Game := Game.new 4 4

/-- The fresh 4 x 4 match after alice joined (and nobody voted). -/
def gJoined : Game := (gNew44.add_user uAlice).1

/-- A directory holding one match under gid1. -/
def dirOne : List (String × Game) := [(gid1, gJoined)]

/-- A terminal match: the fresh 5 x 5 match already over out of bounds. -/
def gOver : Game := { Game.new 5 5 with game_over := some GameOverReason.outOfBounds }

/-- A running match whose next move puts the head out of bounds onto a cell
also occupied by the body: heading west from (0, 0) with body cells already
at (-1, 0) and (-2, 0). -/
def gClash : Game :=
  { Game.new 5 5 with
    rusty := Body.mk Direction.west [Point.mk 0 0, Point.mk (-1) 0, Point.mk (-2) 0] }

/-! ## Lemmas about the vote map and the tally -/

theorem any_key_iff (t : List (Direction × Nat)) (d : Direction) :
    t.any (fun e => e.1 == d) = true ↔ ∃ n, (d, n) ∈ t := by
  rw [List.any_eq_true]
  constructor
  · rintro ⟨⟨d1, n⟩, hm, hp⟩
    simp only [beq_iff_eq] at hp
    subst hp
    exact ⟨n, hm⟩
  · rintro ⟨n, hm⟩
    exact ⟨(d, n), hm, by simp⟩

theorem mem_map_bump_same (t : List (Direction × Nat)) (d0 : Direction) (n : Nat) :
    ((d0, n) ∈ t.map (fun e => if e.1 == d0 then (e.1, e.2 + 1) else e)) ↔
      ∃ m, (d0, m) ∈ t ∧ n = m + 1 := by
  rw [List.mem_map]
  constructor
  · rintro ⟨⟨d1, m⟩, hm, hf⟩
    by_cases h : d1 = d0
    · subst h
      simp only [beq_self_eq_true, if_true, Prod.mk.injEq] at hf
      exact ⟨m, hm, hf.2.symm⟩
    · simp only [beq_iff_eq, h, if_false, Prod.mk.injEq] at hf
      exact hf.1.elim
  · rintro ⟨m, hm, rfl⟩
    exact ⟨(d0, m), hm, by simp⟩

theorem mem_map_bump_other (t : List (Direction × Nat)) (d0 d : Direction) (hne : d ≠ d0)
    (n : Nat) :
    ((d, n) ∈ t.map (fun e => if e.1 == d0 then (e.1, e.2 + 1) else e)) ↔ (d, n) ∈ t := by
  rw [List.mem_map]
  constructor
  · rintro ⟨⟨d1, m⟩, hm, hf⟩
    by_cases h : d1 = d0
    · subst h
      simp only [beq_self_eq_true, if_true, Prod.mk.injEq] at hf
      exact absurd hf.1 (by rintro rfl; exact hne rfl)
    · simp only [beq_iff_eq, h, if_false, Prod.mk.injEq] at hf
      obtain ⟨rfl, rfl⟩ := hf
      exact hm
  · intro hm
    refine ⟨(d, n), hm, ?_⟩
    simp [beq_iff_eq, hne]

theorem mem_bump_tally (t : List (Direction × Nat)) (d0 d : Direction) (n : Nat) :
    ((d, n) ∈ bump_tally t d0) ↔
      (if d = d0 then
        (if t.any (fun e => e.1 == d0) then ∃ m, (d0, m) ∈ t ∧ n = m + 1
         else n = 2)
       else (d, n) ∈ t) := by
  unfold bump_tally
  by_cases hany : t.any (fun e => e.1 == d0) = true
  · rw [if_pos hany]
    by_cases hd : d = d0
    · subst hd
      simp only [if_pos rfl, if_pos hany]
      exact mem_map_bump_same t d n
    · simp only [if_neg hd]
      exact mem_map_bump_other t d0 d hd n
  · rw [if_neg hany]
    by_cases hd : d = d0
    · subst hd
      simp only [if_pos rfl, if_neg hany, List.mem_append, List.mem_singleton, Prod.mk.injEq,
        true_and]
      constructor
      · rintro (hm | rfl)
        · exact absurd ((any_key_iff t d).mpr ⟨n, hm⟩) hany
        · rfl
      · intro h
        exact Or.inr h
    · simp only [if_neg hd, List.mem_append, List.mem_singleton, Prod.mk.injEq]
      constructor
      · rintro (hm | ⟨h1, h2⟩)
        · exact hm
        · exact absurd h1 hd
      · intro hm
        exact Or.inl hm

theorem countVoters_append_singleton (es : List (String × Direction)) (e : String × Direction)
    (d : Direction) :
    countVoters (es ++ [e]) d = countVoters es d + (if e.2 = d then 1 else 0) := by
  unfold countVoters
  rw [List.countP_append]
  simp [List.countP_cons]

theorem tally_votes_append_singleton (es : List (String × Direction)) (e : String × Direction) :
    tally_votes (es ++ [e]) = bump_tally (tally_votes es) e.2 := by
  unfold tally_votes
  rw [List.foldl_append]
  rfl

theorem tally_mem (m : List (String × Direction)) (d : Direction) (n : Nat) :
    ((d, n) ∈ tally_votes m) ↔ (1 ≤ countVoters m d ∧ n = countVoters m d + 1) := by
  induction m using List.reverseRecOn generalizing n with
  | nil => simp [tally_votes, countVoters]
  | append_singleton es e ih =>
    obtain ⟨us, dd⟩ := e
    rw [tally_votes_append_singleton, countVoters_append_singleton,
      mem_bump_tally (tally_votes es) dd d n]
    by_cases hd : d = dd
    · rw [if_pos hd, if_pos (by simp [hd.symm] : ((us, dd) : String × Direction).2 = d)]
      subst hd
      by_cases hany : (tally_votes es).any (fun x => x.1 == d) = true
      · rw [if_pos hany]
        obtain ⟨n0, hn0⟩ := (any_key_iff (tally_votes es) d).mp hany
        have hcv : 1 ≤ countVoters es d := ((ih n0).mp hn0).1
        constructor
        · rintro ⟨m0, hm0, rfl⟩
          have h2 := (ih m0).mp hm0
          omega
        · rintro ⟨_, rfl⟩
          exact ⟨countVoters es d + 1, (ih _).mpr ⟨hcv, rfl⟩, by omega⟩
      · rw [if_neg hany]
        have hcv : ¬ 1 ≤ countVoters es d := by
          intro hge
          exact hany ((any_key_iff (tally_votes es) d).mpr
            ⟨countVoters es d + 1, (ih _).mpr ⟨hge, rfl⟩⟩)
        have hcv0 : countVoters es d = 0 := by omega
        rw [hcv0]
        constructor
        · rintro rfl
          exact ⟨by omega, rfl⟩
        · rintro ⟨_, h2⟩
          omega
    · rw [if_neg hd, if_neg (by simp; intro h2; exact hd h2.symm :
        ¬ ((us, dd) : String × Direction).2 = d)]
      simpa using ih n

theorem max_by_go_stay (d : Direction) (n : Nat) :
    ∀ t : List (Direction × Nat), (∀ e ∈ t, e.2 < n ∨ e = (d, n)) → max_by_go d n t = d := by
  intro t
  induction t with
  | nil => intro _; rfl
  | cons e rest ih =>
    intro h
    rcases h e (List.mem_cons_self e rest) with hlt | heq
    · rw [max_by_go, if_neg (by omega)]
      exact ih (fun x hx => h x (List.mem_cons_of_mem e hx))
    · subst heq
      rw [max_by_go, if_pos (le_refl n)]
      exact ih (fun x hx => h x (List.mem_cons_of_mem _ hx))

theorem max_by_go_reach (d : Direction) (n : Nat) :
    ∀ (t : List (Direction × Nat)) (d0 : Direction) (n0 : Nat), n0 < n → (d, n) ∈ t →
      (∀ e ∈ t, e.1 = d → e = (d, n)) → (∀ e ∈ t, e.1 ≠ d → e.2 < n) →
      max_by_go d0 n0 t = d := by
  intro t
  induction t with
  | nil => intro d0 n0 _ hm _ _; exact absurd hm (List.not_mem_nil _)
  | cons e rest ih =>
    intro d0 n0 hn0 hm hkey hother
    by_cases he : e.1 = d
    · have heq : e = (d, n) := hkey e (List.mem_cons_self e rest) he
      subst heq
      rw [max_by_go, if_pos (by omega)]
      apply max_by_go_stay
      intro x hx
      by_cases hx1 : x.1 = d
      · exact Or.inr (hkey x (List.mem_cons_of_mem _ hx) hx1)
      · exact Or.inl (hother x (List.mem_cons_of_mem _ hx) hx1)
    · have hlt : e.2 < n := hother e (List.mem_cons_self e rest) he
      have hm2 : (d, n) ∈ rest := by
        rcases List.mem_cons.mp hm with heq | hm2
        · exact absurd (congrArg Prod.fst heq.symm) he
        · exact hm2
      rw [max_by_go]
      by_cases hcmp : n0 ≤ e.2
      · rw [if_pos hcmp]
        exact ih e.1 e.2 hlt hm2 (fun x hx => hkey x (List.mem_cons_of_mem _ hx))
          (fun x hx => hother x (List.mem_cons_of_mem _ hx))
      · rw [if_neg hcmp]
        exact ih d0 n0 hn0 hm2 (fun x hx => hkey x (List.mem_cons_of_mem _ hx))
          (fun x hx => hother x (List.mem_cons_of_mem _ hx))

theorem max_by_last_unique (t : List (Direction × Nat)) (d : Direction) (n : Nat)
    (hm : (d, n) ∈ t) (hkey : ∀ e ∈ t, e.1 = d → e = (d, n))
    (hother : ∀ e ∈ t, e.1 ≠ d → e.2 < n) :
    max_by_last t = some d := by
  match t with
  | [] => exact absurd hm (List.not_mem_nil _)
  | e :: rest =>
    rw [max_by_last]
    congr 1
    by_cases he : e.1 = d
    · have heq : e = (d, n) := hkey e (List.mem_cons_self e rest) he
      subst heq
      apply max_by_go_stay
      intro x hx
      by_cases hx1 : x.1 = d
      · exact Or.inr (hkey x (List.mem_cons_of_mem _ hx) hx1)
      · exact Or.inl (hother x (List.mem_cons_of_mem _ hx) hx1)
    · have hlt : e.2 < n := hother e (List.mem_cons_self e rest) he
      have hm2 : (d, n) ∈ rest := by
        rcases List.mem_cons.mp hm with heq | hm2
        · exact absurd (congrArg Prod.fst heq.symm) he
        · exact hm2
      exact max_by_go_reach d n rest e.1 e.2 hlt hm2
        (fun x hx => hkey x (List.mem_cons_of_mem _ hx))
        (fun x hx => hother x (List.mem_cons_of_mem _ hx))

/-- Strict-majority correctness of the vote resolution: when one direction
has strictly more voters than every other direction, it is the result, for
every enumeration order of the vote entries. -/
theorem calculate_direction_strict_max (m : List (String × Direction)) (d : Direction)
    (hmaj : ∀ d2, d2 ≠ d → countVoters m d2 < countVoters m d) :
    calculate_direction m = some d := by
  have hpos : 1 ≤ countVoters m d := by
    have hne : Direction.north ≠ Direction.south := by decide
    by_cases hd : d = Direction.north
    · subst hd
      have := hmaj Direction.south (by decide)
      omega
    · have := hmaj Direction.north (fun h => hd h.symm)
      omega
  apply max_by_last_unique (tally_votes m) d (countVoters m d + 1)
  · exact (tally_mem m d _).mpr ⟨hpos, rfl⟩
  · rintro ⟨d1, n1⟩ hmem h1
    cases h1
    have h2 := (tally_mem m d1 n1).mp hmem
    rw [h2.2]
  · rintro ⟨d1, n1⟩ hmem h1
    have h2 := (tally_mem m d1 n1).mp hmem
    have h3 := hmaj d1 h1
    simp only at h2 ⊢
    omega

theorem countKey_add_direction (m : List (String × Direction)) (u : String) (d : Direction) :
    countKey (add_direction m u d) u = if countKey m u = 0 then 1 else countKey m u := by
  unfold add_direction countKey
  by_cases hany : m.any (fun e => e.1 == u) = true
  · rw [if_pos hany, List.countP_map]
    have hfun : ((fun e : String × Direction => e.1 == u) ∘
        (fun e : String × Direction => if e.1 == u then (e.1, d) else e)) =
        (fun e : String × Direction => e.1 == u) := by
      funext e
      by_cases he : e.1 == u
      · simp [Function.comp, he]
      · simp [Function.comp, he]
    rw [hfun]
    have hpos : 0 < m.countP (fun e : String × Direction => e.1 == u) := by
      rw [List.any_eq_true] at hany
      obtain ⟨e, hm, hp⟩ := hany
      exact List.countP_pos_iff.mpr ⟨e, hm, hp⟩
    rw [if_neg (by omega)]
  · rw [if_neg hany, List.countP_append]
    have hzero : m.countP (fun e : String × Direction => e.1 == u) = 0 := by
      rw [List.countP_eq_zero]
      intro e hm
      intro hp
      exact hany (List.any_eq_true.mpr ⟨e, hm, hp⟩)
    rw [hzero, if_pos rfl]
    simp [List.countP_cons]

theorem countKey_le_one_of_nodup (m : List (String × Direction)) (u : String)
    (hnd : (m.map Prod.fst).Nodup) : countKey m u ≤ 1 := by
  unfold countKey
  have hcnt : m.countP (fun e : String × Direction => e.1 == u) =
      (m.map Prod.fst).countP (fun s => s == u) := by
    rw [List.countP_map]
    rfl
  rw [hcnt]
  have h2 := List.nodup_iff_count_le_one.mp hnd u
  rw [List.count] at h2
  exact le_trans (le_of_eq (by rfl)) h2

theorem countKey_addMany_stay (u : String) (ds : List Direction) :
    ∀ m : List (String × Direction), countKey m u = 1 → countKey (addMany m u ds) u = 1 := by
  induction ds with
  | nil => intro m hm; exact hm
  | cons d ds ih =>
    intro m hm
    have hstep : countKey (add_direction m u d) u = 1 := by
      rw [countKey_add_direction, hm]
      simp
    exact ih (add_direction m u d) hstep

theorem countKey_addMany_one (m : List (String × Direction)) (u : String) (ds : List Direction)
    (hnd : (m.map Prod.fst).Nodup) (hds : ds ≠ []) :
    countKey (addMany m u ds) u = 1 := by
  match ds with
  | [] => exact absurd rfl hds
  | d :: ds2 =>
    have hle := countKey_le_one_of_nodup m u hnd
    have hstep : countKey (add_direction m u d) u = 1 := by
      rw [countKey_add_direction]
      by_cases h0 : countKey m u = 0
      · rw [if_pos h0]
      · rw [if_neg h0]
        omega
    exact countKey_addMany_stay u ds2 (add_direction m u d) hstep

theorem find_map_overwrite (u : String) (d : Direction) :
    ∀ m : List (String × Direction), m.any (fun e => e.1 == u) = true →
    (((m.map (fun e => if e.1 == u then (e.1, d) else e)).find?
        (fun e => e.1 == u)).map (fun e => e.2)) = some d := by
  intro m
  induction m with
  | nil => intro h; simp at h
  | cons e m2 ih =>
    intro hany
    by_cases he : (e.1 == u) = true
    · simp only [List.map_cons, if_pos he, List.find?]
      rw [he]
      rfl
    · have he2 : (e.1 == u) = false := Bool.not_eq_true _ ▸ Bool.of_not_eq_true he
      simp only [List.map_cons, if_neg he, List.find?]
      rw [he2]
      apply ih
      rw [List.any_cons] at hany
      rcases Bool.or_eq_true_iff.mp hany with h1 | h1
      · exact absurd h1 he
      · exact h1

theorem lookupDir_add_direction (m : List (String × Direction)) (u : String) (d : Direction) :
    lookupDir (add_direction m u d) u = some d := by
  unfold add_direction lookupDir
  by_cases hany : m.any (fun e => e.1 == u) = true
  · rw [if_pos hany]
    exact find_map_overwrite u d m hany
  · rw [if_neg hany]
    have hnone : m.find? (fun e : String × Direction => e.1 == u) = none := by
      rw [List.find?_eq_none]
      intro e hm hp
      exact hany (List.any_eq_true.mpr ⟨e, hm, hp⟩)
    rw [List.find?_append, hnone]
    simp [List.find?]

/-! ## Lemmas about food placement and ticks -/

theorem food_search_some (body : List Point) (draws : Nat → Point) (bound : Int) :
    ∀ (fuel retries : Nat) (p : Point),
      food_search body draws bound retries fuel = some p →
      (¬ p ∈ body) ∧ ∃ k, p = draws k := by
  intro fuel
  induction fuel with
  | zero =>
    intro retries p h
    rw [food_search] at h
    by_cases hc : (body.contains (draws retries) : Bool) = true
    · rw [if_pos hc] at h
      exact absurd h (by simp)
    · rw [if_neg hc] at h
      have hp : p = draws retries := (Option.some.inj h).symm
      subst hp
      refine ⟨?_, retries, rfl⟩
      intro hmem
      exact hc (List.elem_iff.mpr hmem)
  | succ fuel2 ih =>
    intro retries p h
    rw [food_search] at h
    by_cases hc : (body.contains (draws retries) : Bool) = true
    · rw [if_pos hc] at h
      by_cases hb : bound < (retries : Int) + 1
      · rw [if_pos hb] at h
        exact absurd h (by simp)
      · rw [if_neg hb] at h
        exact ih (retries + 1) p h
    · rw [if_neg hc] at h
      have hp : p = draws retries := (Option.some.inj h).symm
      subst hp
      refine ⟨?_, retries, rfl⟩
      intro hmem
      exact hc (List.elem_iff.mpr hmem)

theorem food_search_none (body : List Point) (draws : Nat → Point) (bound : Int)
    (hall : ∀ k, k ≤ bound.toNat → draws k ∈ body) :
    ∀ (fuel retries : Nat), retries ≤ bound.toNat → retries + fuel = bound.toNat + 1 →
      food_search body draws bound retries fuel = none := by
  intro fuel
  induction fuel with
  | zero =>
    intro retries h1 h2
    omega
  | succ fuel2 ih =>
    intro retries h1 h2
    rw [food_search]
    have hc : (body.contains (draws retries) : Bool) = true :=
      List.elem_iff.mpr (hall retries h1)
    rw [if_pos hc]
    by_cases hb : bound < (retries : Int) + 1
    · rw [if_pos hb]
    · rw [if_neg hb]
      have hge : (0 : Int) ≤ bound := by omega
      have hr2 : retries + 1 ≤ bound.toNat := by omega
      exact ih (retries + 1) hr2 (by omega)

theorem generate_new_food_some (g : Game) (draws : Nat → Point) (g2 : Game)
    (h : g.generate_new_food draws = some g2) :
    (¬ g2.food ∈ g.rusty.body) ∧ (∃ k, g2.food = draws k) ∧
      g2 = { g with food := g2.food } := by
  simp only [Game.generate_new_food] at h
  rw [Option.map_eq_some'] at h
  obtain ⟨p, hp, hg2⟩ := h
  subst hg2
  have h2 := food_search_some g.rusty.body draws (g.height * g.width * 2) _ _ p hp
  exact ⟨h2.1, h2.2, rfl⟩

theorem generate_new_food_none (g : Game) (draws : Nat → Point)
    (hall : ∀ k, k ≤ (g.height * g.width * 2).toNat → draws k ∈ g.rusty.body) :
    g.generate_new_food draws = none := by
  simp only [Game.generate_new_food]
  rw [food_search_none g.rusty.body draws (g.height * g.width * 2) hall
    ((g.height * g.width * 2).toNat + 1) 0 (by omega) (by omega)]
  rfl

theorem tick_terminal (g : Game) (r : GameOverReason) (maxSpaces : Nat) (draws : Nat → Point)
    (h : g.game_over = some r) :
    Game.tick g maxSpaces draws =
      some ({ g with epoch := g.epoch + 1, game_state_version := g.game_state_version + 1 },
        some r) := by
  simp only [Game.tick, h]

theorem generate_new_food_game_over (g : Game) (draws : Nat → Point) (g2 : Game)
    (h : g.generate_new_food draws = some g2) :
    g2.game_over = g.game_over ∧ g2.game_state_cache = g.game_state_cache ∧
      g2.game_state_version = g.game_state_version ∧ g2.epoch = g.epoch ∧
      g2.rusty = g.rusty := by
  have h2 := (generate_new_food_some g draws g2 h).2.2
  rw [h2]
  exact ⟨rfl, rfl, rfl, rfl, rfl⟩

theorem tick_running (g : Game) (maxSpaces : Nat) (draws : Nat → Point) (b2 : Body)
    (grew : Bool) (g2 : Game) (res : Option GameOverReason)
    (hrun : g.game_over = none)
    (hmv : Body.move_in_direction g.rusty g.tick_direction g.food = some (b2, grew))
    (htick : Game.tick g maxSpaces draws = some (g2, res)) :
    res = (if b2.is_collide_with_self = true then some GameOverReason.collideWithSelf
      else if b2.body.headI.x < 0 ∨ b2.body.headI.y < 0 ∨ g.width ≤ b2.body.headI.x ∨
          g.height ≤ b2.body.headI.y then some GameOverReason.outOfBounds
      else if b2.body.length = maxSpaces then some GameOverReason.winner
      else none) ∧ res = g2.game_over := by
  simp only [Game.tick, hrun, hmv] at htick
  cases grew with
  | false =>
    simp only [Bool.false_eq_true, if_false] at htick
    obtain ⟨hval, hres⟩ := Prod.mk.injEq _ _ _ _ ▸ Option.some.inj htick
    subst hval
    subst hres
    refine ⟨?_, rfl⟩
    by_cases hcl : b2.is_collide_with_self = true <;>
      by_cases ho : (b2.body.headI.x < 0 ∨ b2.body.headI.y < 0 ∨ g.width ≤ b2.body.headI.x ∨
        g.height ≤ b2.body.headI.y) <;>
      by_cases hw : b2.body.length = maxSpaces <;>
      simp only [hcl, ho, hw, if_true, if_false, hrun]
  | true =>
    simp only [if_true] at htick
    rw [Option.map_eq_some'] at htick
    obtain ⟨g6, hgen, heq⟩ := htick
    obtain ⟨hval, hres⟩ := Prod.mk.injEq _ _ _ _ ▸ heq
    subst hval
    subst hres
    refine ⟨?_, rfl⟩
    rw [(generate_new_food_game_over _ draws g6 hgen).1]

theorem tick_cache (g : Game) (maxSpaces : Nat) (draws : Nat → Point) (g2 : Game)
    (res : Option GameOverReason) (h : Game.tick g maxSpaces draws = some (g2, res)) :
    g2.game_state_cache = g.game_state_cache ∧ g.game_state_version < g2.game_state_version := by
  simp only [Game.tick] at h
  cases hgo : g.game_over with
  | some r =>
    rw [hgo] at h
    obtain ⟨hval, hres⟩ := Prod.mk.injEq _ _ _ _ ▸ Option.some.inj h
    subst hval
    exact ⟨rfl, Nat.lt_succ_self g.game_state_version⟩
  | none =>
    rw [hgo] at h
    cases hmv : Body.move_in_direction g.rusty g.tick_direction g.food with
    | none =>
      rw [hmv] at h
      exact absurd h (by simp)
    | some pr =>
      obtain ⟨b2, grew⟩ := pr
      rw [hmv] at h
      cases grew with
      | false =>
        simp only [Bool.false_eq_true, if_false] at h
        obtain ⟨hval, hres⟩ := Prod.mk.injEq _ _ _ _ ▸ Option.some.inj h
        subst hval
        exact ⟨rfl, Nat.lt_succ_self g.game_state_version⟩
      | true =>
        simp only [if_true] at h
        rw [Option.map_eq_some'] at h
        obtain ⟨g6, hgen, heq⟩ := h
        obtain ⟨hval, hres⟩ := Prod.mk.injEq _ _ _ _ ▸ heq
        subst hval
        have hg6 := generate_new_food_game_over _ draws g6 hgen
        refine ⟨?_, ?_⟩
        · rw [hg6.2.1]
        · rw [hg6.2.2.1]
          exact Nat.lt_succ_self g.game_state_version

/-- When at least one mutation happened since the cached version, the
accessor takes the recompute branch. -/
theorem into_game_state_fresh (g : Game)
    (h : g.game_state_cache.last_returned_game_state_version < g.game_state_version) :
    g.into_game_state = some g.freshSnapshot := by
  unfold Game.into_game_state
  rw [if_neg (by omega)]

theorem applyOp_cache (g : Game) (op : GameOp) (g2 : Game) (h : applyOp g op = some g2) :
    g2.game_state_cache = g.game_state_cache ∧ g.game_state_version ≤ g2.game_state_version := by
  cases op with
  | tickCmd ms draws =>
    simp only [applyOp] at h
    rw [Option.map_eq_some'] at h
    obtain ⟨pr, hpr, hfst⟩ := h
    obtain ⟨g3, res⟩ := pr
    simp only at hfst
    subst hfst
    have h2 := tick_cache g ms draws g3 res hpr
    exact ⟨h2.1, le_of_lt h2.2⟩
  | addUser u =>
    simp only [applyOp, Game.add_user] at h
    by_cases hc : (g.users.contains u : Bool) = true
    · rw [if_pos hc] at h
      obtain rfl := Option.some.inj h
      exact ⟨rfl, le_refl _⟩
    · rw [if_neg hc] at h
      obtain rfl := (Option.some.inj h).symm
      exact ⟨rfl, le_refl _⟩
  | addDirection u d =>
    simp only [applyOp, Game.add_user_direction] at h
    obtain rfl := (Option.some.inj h).symm
    exact ⟨rfl, le_refl _⟩
  | readState =>
    simp only [applyOp] at h
    rw [Option.map_eq_some'] at h
    obtain ⟨st, _, hg⟩ := h
    subst hg
    exact ⟨rfl, le_refl _⟩

theorem applyOps_cache (ops : List GameOp) :
    ∀ (g g2 : Game), applyOps g ops = some g2 →
      g2.game_state_cache = g.game_state_cache ∧ g.game_state_version ≤ g2.game_state_version := by
  induction ops with
  | nil =>
    intro g g2 h
    obtain rfl := Option.some.inj h
    exact ⟨rfl, le_refl _⟩
  | cons op ops ih =>
    intro g g2 h
    simp only [applyOps] at h
    cases hop : applyOp g op with
    | none => rw [hop] at h; exact absurd h (by simp)
    | some g3 =>
      rw [hop] at h
      have h1 := applyOp_cache g op g3 hop
      have h2 := ih g3 g2 h
      exact ⟨h2.1.trans h1.1, le_trans h1.2 h2.2⟩

/-! ## Claim theorems -/

/-- C1 (amended): once a match is over with reason r, every further Tick
returns the same terminal reason without simulating: body, food, votes,
users and the game-over reason are unchanged. However, contrary to the
original claim, each such Tick still increments the epoch (the snapshot
tick counter) and the snapshot version counter, so the snapshot observed
after a further Tick is not identical to the cached one. -/
theorem tick_terminal_idempotent_amended (g : Game) (r : GameOverReason) (maxSpaces : Nat)
    (draws : Nat → Point) (h : g.game_over = some r) :
    Game.tick g maxSpaces draws =
      some ({ g with epoch := g.epoch + 1, game_state_version := g.game_state_version + 1 },
        some r) :=
  tick_terminal g r maxSpaces draws h

/-- Witness for C1 at a concrete terminal 5 x 5 match. -/
theorem tick_terminal_idempotent_amended_check :
    Game.tick gOver 25 drawsZero =
      some ({ gOver with
          epoch := gOver.epoch + 1,
          game_state_version := gOver.game_state_version + 1 },
        some GameOverReason.outOfBounds) :=
  tick_terminal_idempotent_amended gOver GameOverReason.outOfBounds 25 drawsZero rfl

/-- Counterexample to C1 as stated: on a concrete match already over, one
more Tick changes the snapshot tick counter from 0 to 1, so repeated Ticks
after the match is over do not return a snapshot with an unchanged tick
counter. -/
theorem tick_terminal_version_counterexample :
    gOver.game_over = some GameOverReason.outOfBounds ∧
    (Game.tick gOver 25 drawsZero).map (fun pr => pr.1.into_game_state.map (fun st => st.tick)) =
      some (some 1) ∧
    gOver.into_game_state.map (fun st => st.tick) = some 0 ∧
    ((some (some 1) : Option (Option Nat)) ≠ some (some 0)) := by
  refine ⟨rfl, by decide, by decide, by decide⟩

/-- C2 (amended): on a running match a tick moves the body, then checks
winner, out of bounds and self collision in that order — but a later check
is not skipped once an earlier one set a reason: each failing check
overwrites game_over, so the reported reason is the last failing check
(self collision over out of bounds over winner). In particular a moved
head that is simultaneously out of bounds and equal to another body cell
is reported as CollideWithSelf, not OutOfBounds. -/
theorem tick_check_order_amended (g : Game) (maxSpaces : Nat) (draws : Nat → Point) (b2 : Body)
    (grew : Bool) (g2 : Game) (res : Option GameOverReason)
    (hrun : g.game_over = none)
    (hmv : Body.move_in_direction g.rusty g.tick_direction g.food = some (b2, grew))
    (htick : Game.tick g maxSpaces draws = some (g2, res)) :
    res = (if b2.is_collide_with_self = true then some GameOverReason.collideWithSelf
      else if b2.body.headI.x < 0 ∨ b2.body.headI.y < 0 ∨ g.width ≤ b2.body.headI.x ∨
          g.height ≤ b2.body.headI.y then some GameOverReason.outOfBounds
      else if b2.body.length = maxSpaces then some GameOverReason.winner
      else none) ∧
    res = g2.game_over ∧
    (b2.is_collide_with_self = true →
      (b2.body.headI.x < 0 ∨ b2.body.headI.y < 0 ∨ g.width ≤ b2.body.headI.x ∨
        g.height ≤ b2.body.headI.y) →
      res = some GameOverReason.collideWithSelf) := by
  have h := tick_running g maxSpaces draws b2 grew g2 res hrun hmv htick
  refine ⟨h.1, h.2, ?_⟩
  intro hcl _
  rw [h.1, if_pos hcl]

/-- Witness for C2 at the concrete clashing match. -/
theorem tick_check_order_amended_check :
    (some GameOverReason.collideWithSelf : Option GameOverReason) =
      (if (Body.mk Direction.west
            [Point.mk (-1) 0, Point.mk 0 0, Point.mk (-1) 0]).is_collide_with_self = true then
          some GameOverReason.collideWithSelf
        else if (Body.mk Direction.west
            [Point.mk (-1) 0, Point.mk 0 0, Point.mk (-1) 0]).body.headI.x < 0 ∨
            (Body.mk Direction.west
              [Point.mk (-1) 0, Point.mk 0 0, Point.mk (-1) 0]).body.headI.y < 0 ∨
            gClash.width ≤ (Body.mk Direction.west
              [Point.mk (-1) 0, Point.mk 0 0, Point.mk (-1) 0]).body.headI.x ∨
            gClash.height ≤ (Body.mk Direction.west
              [Point.mk (-1) 0, Point.mk 0 0, Point.mk (-1) 0]).body.headI.y then
          some GameOverReason.outOfBounds
        else if (Body.mk Direction.west
            [Point.mk (-1) 0, Point.mk 0 0, Point.mk (-1) 0]).body.length = 25 then
          some GameOverReason.winner
        else none) ∧
    (some GameOverReason.collideWithSelf : Option GameOverReason) =
      ({ gClash with
          epoch := gClash.epoch + 1,
          game_state_version := gClash.game_state_version + 1,
          rusty := Body.mk Direction.west [Point.mk (-1) 0, Point.mk 0 0, Point.mk (-1) 0],
          game_over := some GameOverReason.collideWithSelf } : Game).game_over ∧
    ((Body.mk Direction.west
        [Point.mk (-1) 0, Point.mk 0 0, Point.mk (-1) 0]).is_collide_with_self = true →
      ((Body.mk Direction.west
          [Point.mk (-1) 0, Point.mk 0 0, Point.mk (-1) 0]).body.headI.x < 0 ∨
        (Body.mk Direction.west
          [Point.mk (-1) 0, Point.mk 0 0, Point.mk (-1) 0]).body.headI.y < 0 ∨
        gClash.width ≤ (Body.mk Direction.west
          [Point.mk (-1) 0, Point.mk 0 0, Point.mk (-1) 0]).body.headI.x ∨
        gClash.height ≤ (Body.mk Direction.west
          [Point.mk (-1) 0, Point.mk 0 0, Point.mk (-1) 0]).body.headI.y) →
      (some GameOverReason.collideWithSelf : Option GameOverReason) =
        some GameOverReason.collideWithSelf) :=
  tick_check_order_amended gClash 25 drawsZero
    (Body.mk Direction.west [Point.mk (-1) 0, Point.mk 0 0, Point.mk (-1) 0]) false
    { gClash with
      epoch := gClash.epoch + 1,
      game_state_version := gClash.game_state_version + 1,
      rusty := Body.mk Direction.west [Point.mk (-1) 0, Point.mk 0 0, Point.mk (-1) 0],
      game_over := some GameOverReason.collideWithSelf }
    (some GameOverReason.collideWithSelf) rfl (by decide) (by decide)

/-- Counterexample to C2 as stated: a concrete tick whose moved head
(-1, 0) is out of bounds and also equals another body cell, yet the
reported reason is CollideWithSelf rather than OutOfBounds. -/
theorem tick_simultaneous_oob_collide_counterexample :
    (Game.tick gClash 25 drawsZero).map (fun pr => pr.2) =
      some (some GameOverReason.collideWithSelf) ∧
    (Game.tick gClash 25 drawsZero).map (fun pr => pr.1.rusty.body) =
      some [Point.mk (-1) 0, Point.mk 0 0, Point.mk (-1) 0] ∧
    (Point.mk (-1) 0).x < 0 ∧
    (Point.mk (-1) 0) ∈ [Point.mk 0 0, Point.mk (-1) 0] ∧
    (some (some GameOverReason.collideWithSelf) ≠
      (some (some GameOverReason.outOfBounds) : Option (Option GameOverReason))) := by
  refine ⟨by decide, by decide, by decide, by decide, by decide⟩

/-- C4: for every nonempty body, direction and food point, the move pushes
newHead, the head of the body after the move, to the front; the grew flag
is true exactly when newHead equals the food; on growth the whole old body
is kept behind the new head and the length rises by one; otherwise the
tail cell is removed and the length is unchanged. -/
theorem move_in_direction_growth (b : Body) (dir : Direction) (food p : Point)
    (t : List Point) (b2 : Body) (grew : Bool)
    (hb : b.body = p :: t)
    (hmv : Body.move_in_direction b dir food = some (b2, grew)) :
    (grew = true ↔ p.add_direction dir = food) ∧
    b2.body.head? = some (p.add_direction dir) ∧
    (grew = true → b2.body = p.add_direction dir :: p :: t ∧
      b2.body.length = b.body.length + 1) ∧
    (grew = false → b2.body = (p.add_direction dir :: p :: t).dropLast ∧
      b2.body.length = b.body.length) := by
  simp only [Body.move_in_direction, hb] at hmv
  obtain ⟨hval, hres⟩ := Prod.mk.injEq _ _ _ _ ▸ Option.some.inj hmv
  by_cases hf : p.add_direction dir = food
  · have hbeq : (p.add_direction dir == food) = true := beq_iff_eq.mpr hf
    rw [hbeq] at hval hres
    subst hres
    rw [if_pos rfl] at hval
    subst hval
    refine ⟨by simp [hf], rfl, fun _ => ⟨rfl, by simp [hb]⟩, by simp⟩
  · have hbeq : (p.add_direction dir == food) = false := beq_eq_false_iff_ne.mpr hf
    rw [hbeq] at hval hres
    subst hres
    rw [if_neg (by simp)] at hval
    subst hval
    refine ⟨by simp [hf], ?_, by simp, fun _ => ⟨rfl, ?_⟩⟩
    · cases t with
      | nil => rfl
      | cons q t2 => rfl
    · rw [hb]
      simp [List.length_dropLast]

/-- Witness for C4: an eastwards move of the initial body onto the food. -/
theorem move_in_direction_growth_check :
    (true = true ↔ (Point.mk 2 2).add_direction Direction.east = Point.mk 3 2) ∧
    (Body.mk Direction.east
      [Point.mk 3 2, Point.mk 2 2, Point.mk 1 2, Point.mk 0 2]).body.head? =
      some ((Point.mk 2 2).add_direction Direction.east) ∧
    (true = true →
      (Body.mk Direction.east
        [Point.mk 3 2, Point.mk 2 2, Point.mk 1 2, Point.mk 0 2]).body =
        (Point.mk 2 2).add_direction Direction.east :: Point.mk 2 2 ::
          [Point.mk 1 2, Point.mk 0 2] ∧
      (Body.mk Direction.east
        [Point.mk 3 2, Point.mk 2 2, Point.mk 1 2, Point.mk 0 2]).body.length =
        (Body.new 2).body.length + 1) ∧
    (true = false →
      (Body.mk Direction.east
        [Point.mk 3 2, Point.mk 2 2, Point.mk 1 2, Point.mk 0 2]).body =
        ((Point.mk 2 2).add_direction Direction.east :: Point.mk 2 2 ::
          [Point.mk 1 2, Point.mk 0 2]).dropLast ∧
      (Body.mk Direction.east
        [Point.mk 3 2, Point.mk 2 2, Point.mk 1 2, Point.mk 0 2]).body.length =
        (Body.new 2).body.length) :=
  move_in_direction_growth (Body.new 2) Direction.east (Point.mk 3 2) (Point.mk 2 2)
    [Point.mk 1 2, Point.mk 0 2]
    (Body.mk Direction.east [Point.mk 3 2, Point.mk 2 2, Point.mk 1 2, Point.mk 0 2])
    true rfl (by decide)

/-- C8: whenever the draw stream stays on the board, a successful food
placement yields a food cell inside the board and off the body, changing
nothing but the food; and a draw stream that keeps hitting the body up to
the retry bound height * width * 2 makes the placement give up with a
panic (none) instead of looping forever. -/
theorem generate_new_food_bounds (g g2 : Game) (draws draws2 : Nat → Point)
    (hin : ∀ n, 0 ≤ (draws n).x ∧ (draws n).x < g.width ∧ 0 ≤ (draws n).y ∧
      (draws n).y < g.height)
    (hsome : g.generate_new_food draws = some g2)
    (hall : ∀ k, k ≤ (g.height * g.width * 2).toNat → draws2 k ∈ g.rusty.body) :
    (0 ≤ g2.food.x ∧ g2.food.x < g.width ∧ 0 ≤ g2.food.y ∧ g2.food.y < g.height) ∧
    (¬ g2.food ∈ g.rusty.body) ∧
    g2 = { g with food := g2.food } ∧
    g.generate_new_food draws2 = none := by
  have h1 := generate_new_food_some g draws g2 hsome
  obtain ⟨k, hk⟩ := h1.2.1
  refine ⟨?_, h1.1, h1.2.2, generate_new_food_none g draws2 hall⟩
  rw [hk]
  exact hin k

/-- Witness for C8 on the fresh 4 x 4 match: the first draw (0, 0) is free
and becomes the food, while a stream stuck on the body cell (2, 2) panics. -/
theorem generate_new_food_bounds_check :
    (0 ≤ ({ gNew44 with food := Point.mk 0 0 } : Game).food.x ∧
      ({ gNew44 with food := Point.mk 0 0 } : Game).food.x < gNew44.width ∧
      0 ≤ ({ gNew44 with food := Point.mk 0 0 } : Game).food.y ∧
      ({ gNew44 with food := Point.mk 0 0 } : Game).food.y < gNew44.height) ∧
    (¬ ({ gNew44 with food := Point.mk 0 0 } : Game).food ∈ gNew44.rusty.body) ∧
    ({ gNew44 with food := Point.mk 0 0 } : Game) =
      { gNew44 with food := ({ gNew44 with food := Point.mk 0 0 } : Game).food } ∧
    gNew44.generate_new_food drawsBody = none :=
  generate_new_food_bounds gNew44 { gNew44 with food := Point.mk 0 0 } drawsZero drawsBody
    (fun _ => show 0 ≤ (Point.mk 0 0).x ∧ (Point.mk 0 0).x < gNew44.width ∧
      0 ≤ (Point.mk 0 0).y ∧ (Point.mk 0 0).y < gNew44.height by decide)
    (by decide)
    (fun _ _ => show Point.mk 2 2 ∈ gNew44.rusty.body by decide)

/-- C3: vote resolution returns the direction with the strictly highest
number of voters, over every iteration order of the vote entries (the
entries stand for the HashMap contents, one entry per voter); a player
voting repeatedly keeps exactly one entry in the map, holding the latest
direction; with no votes the resolution is none and the tick direction
falls back to the current travel direction of the body. -/
theorem calculate_direction_majority (entries : List (String × Direction)) (d : Direction)
    (m : List (String × Direction)) (u : String) (d2 : Direction) (ds : List Direction)
    (g : Game)
    (hmaj : ∀ dOther, dOther ≠ d → countVoters entries dOther < countVoters entries d)
    (hmnd : (m.map Prod.fst).Nodup)
    (hds : ds ≠ [])
    (hg : g.requested_directions = []) :
    calculate_direction entries = some d ∧
    countKey (addMany m u ds) u = 1 ∧
    lookupDir (add_direction m u d2) u = some d2 ∧
    calculate_direction [] = none ∧
    g.tick_direction = g.rusty.direction := by
  refine ⟨calculate_direction_strict_max entries d hmaj,
    countKey_addMany_one m u ds hmnd hds,
    lookupDir_add_direction m u d2, rfl, ?_⟩
  unfold Game.tick_direction
  rw [hg]
  rfl

/-- Witness for C3: votes 2 north against 1 south resolve to north; ten
votes of one user collapse to one entry; the fresh match with no votes
keeps heading east. -/
theorem calculate_direction_majority_check :
    calculate_direction votesSample = some Direction.north ∧
    countKey (addMany [] uAlice [Direction.north, Direction.south]) uAlice = 1 ∧
    lookupDir (add_direction [] uAlice Direction.east) uAlice = some Direction.east ∧
    calculate_direction [] = none ∧
    gNew44.tick_direction = gNew44.rusty.direction :=
  calculate_direction_majority votesSample Direction.north [] uAlice Direction.east
    [Direction.north, Direction.south] gNew44 (by decide) (by decide) (by decide) rfl

/-- C5 (code bug): the snapshot cache is never written. Starting from
Game.new, after any successful sequence of commands (ticks, joins, vote
updates, snapshot reads) the cache still holds version 0 and no snapshot,
while the version counter stays at least 1, so into_game_state never takes
the cached branch: every read rebuilds a fresh snapshot, and two reads
with no intervening mutation each recompute instead of re-using the
previously produced value. -/
theorem snapshot_cache_never_updated (h w : Int) (ops : List GameOp) (g2 : Game)
    (happly : applyOps (Game.new h w) ops = some g2) :
    g2.game_state_cache = GameStateCache.mk 0 none ∧
    1 ≤ g2.game_state_version ∧
    g2.into_game_state = some g2.freshSnapshot := by
  have h1 := applyOps_cache ops (Game.new h w) g2 happly
  have hc : g2.game_state_cache = GameStateCache.mk 0 none := by
    rw [h1.1]
    rfl
  have hv : 1 ≤ g2.game_state_version := h1.2
  refine ⟨hc, hv, into_game_state_fresh g2 ?_⟩
  rw [hc]
  exact lt_of_lt_of_le Nat.zero_lt_one hv

/-- Witness for C5: two consecutive snapshot reads on the fresh 4 x 4 match
leave the cache empty and both recompute. -/
theorem snapshot_cache_never_updated_check :
    gNew44.game_state_cache = GameStateCache.mk 0 none ∧
    1 ≤ gNew44.game_state_version ∧
    gNew44.into_game_state = some gNew44.freshSnapshot :=
  snapshot_cache_never_updated 4 4 [GameOp.readState, GameOp.readState] gNew44 (by decide)

/-- C6: in the library path, every operation on a match id missing from the
directory fails InvalidGame synchronously, with zero mailbox sends and the
directory (hence every match state) unchanged; and update, start and
status on an existing match with a player that has not joined fail
InvalidUser, again leaving the directory unchanged. -/
theorem manager_lookup_membership_errors (d : List (String × Game))
    (missId gameId userId newUserId : String) (direction : Direction) (g : Game)
    (hmiss : lookupGame d missId = none)
    (hhit : lookupGame d gameId = some g)
    (hnm : g.user_has_joined_game userId = false) :
    GameManager.update_game d missId userId direction =
      some (MgrOutcome.mk (GameResult.err GameError.invalidGame) 0 d) ∧
    GameManager.start_game d missId userId =
      some (MgrOutcome.mk (GameResult.err GameError.invalidGame) 0 d) ∧
    GameManager.game_status d missId userId =
      some (MgrOutcome.mk (GameResult.err GameError.invalidGame) 0 d) ∧
    GameManager.join_game d missId newUserId =
      some (MgrOutcome.mk (GameResult.err GameError.invalidGame) 0 d) ∧
    GameManager.update_game d gameId userId direction =
      some (MgrOutcome.mk (GameResult.err GameError.invalidUser) 1 d) ∧
    GameManager.start_game d gameId userId =
      some (MgrOutcome.mk (GameResult.err GameError.invalidUser) 1 d) ∧
    GameManager.game_status d gameId userId =
      some (MgrOutcome.mk (GameResult.err GameError.invalidUser) 1 d) := by
  unfold GameManager.update_game GameManager.start_game GameManager.game_status
    GameManager.join_game
  rw [hmiss, hhit]
  simp only [hnm, Bool.false_eq_true, if_false, and_self, and_true, true_and]

/-- Witness for C6 on a one-match directory where only alice has joined. -/
theorem manager_lookup_membership_errors_check :
    GameManager.update_game dirOne gidMissing uBob Direction.north =
      some (MgrOutcome.mk (GameResult.err GameError.invalidGame) 0 dirOne) ∧
    GameManager.start_game dirOne gidMissing uBob =
      some (MgrOutcome.mk (GameResult.err GameError.invalidGame) 0 dirOne) ∧
    GameManager.game_status dirOne gidMissing uBob =
      some (MgrOutcome.mk (GameResult.err GameError.invalidGame) 0 dirOne) ∧
    GameManager.join_game dirOne gidMissing uAlice =
      some (MgrOutcome.mk (GameResult.err GameError.invalidGame) 0 dirOne) ∧
    GameManager.update_game dirOne gid1 uBob Direction.north =
      some (MgrOutcome.mk (GameResult.err GameError.invalidUser) 1 dirOne) ∧
    GameManager.start_game dirOne gid1 uBob =
      some (MgrOutcome.mk (GameResult.err GameError.invalidUser) 1 dirOne) ∧
    GameManager.game_status dirOne gid1 uBob =
      some (MgrOutcome.mk (GameResult.err GameError.invalidUser) 1 dirOne) :=
  manager_lookup_membership_errors dirOne gidMissing gid1 uBob uAlice Direction.north gJoined
    (by decide) (by decide) (by decide)

/-- C7 (code bug): in the RPC service path, when the request passed the
directory lookup but the actor has exited so the oneshot reply channel
closes, RustyService.update_game_internal unwraps the missing reply and
panics (none) instead of returning an Internal error; an unknown match id
by contrast is reported as InvalidGame. The service error enum of types.rs
has only the two variants InvalidUser and InvalidGame, so an Internal kind
is not even expressible on this path. -/
theorem service_reply_channel_closed_panics :
    RustyService.update_game_internal dirOne gid1 uBob Direction.north none = none ∧
    RustyService.update_game_internal dirOne gidMissing uBob Direction.north none =
      some (Except.error GameErrorSvc.invalidGame) ∧
    (Finset.univ : Finset GameErrorSvc) =
      {GameErrorSvc.invalidUser, GameErrorSvc.invalidGame} := by
  refine ⟨?_, ?_, by decide⟩
  · show RustyService.update_game_internal dirOne gid1 uBob Direction.north none = none
    unfold RustyService.update_game_internal
    rw [show lookupGame dirOne gid1 = some gJoined from by decide]
  · unfold RustyService.update_game_internal
    rw [show lookupGame dirOne gidMissing = none from by decide]

/-- C9: the task.rs actor handlers perform no player-membership check at
all: for every user identifier, joined or not, the update handler records
the vote and replies a snapshot, and the status handler replies a
snapshot. The reply channel of this path carries a plain GameState, so a
NotJoined error cannot even be sent. -/
theorem task_no_membership_check (g : Game) (u : String) (dirn : Direction)
    (hver : g.game_state_cache.last_returned_game_state_version < g.game_state_version) :
    Task.update_game g u dirn =
      some ((g.add_user_direction u dirn).freshSnapshot, g.add_user_direction u dirn) ∧
    lookupDir (g.add_user_direction u dirn).requested_directions u = some dirn ∧
    Task.game_status g u = some g.freshSnapshot := by
  have hver2 : (g.add_user_direction u dirn).game_state_cache.last_returned_game_state_version <
      (g.add_user_direction u dirn).game_state_version := hver
  refine ⟨?_, ?_, into_game_state_fresh g hver⟩
  · show Option.map (fun st => (st, g.add_user_direction u dirn))
      (g.add_user_direction u dirn).into_game_state =
      some ((g.add_user_direction u dirn).freshSnapshot, g.add_user_direction u dirn)
    rw [into_game_state_fresh _ hver2]
    rfl
  · exact lookupDir_add_direction g.requested_directions u dirn

/-- Witness for C9: bob never joined gJoined, yet his direction request is
recorded and answered with a snapshot. -/
theorem task_no_membership_check_check :
    gJoined.user_has_joined_game uBob = false ∧
    (Task.update_game gJoined uBob Direction.north =
      some ((gJoined.add_user_direction uBob Direction.north).freshSnapshot,
        gJoined.add_user_direction uBob Direction.north) ∧
    lookupDir (gJoined.add_user_direction uBob Direction.north).requested_directions uBob =
      some Direction.north ∧
    Task.game_status gJoined uBob = some gJoined.freshSnapshot) :=
  ⟨by decide, task_no_membership_check gJoined uBob Direction.north (by decide)⟩

/-- C10: the snapshot player count equals the number of recorded direction
votes, not the number of joined players: whenever some joined player has
no recorded vote (votes keyed by joined players, no duplicates), the
reported count is strictly below the size of the joined set. -/
theorem snapshot_num_users_counts_votes (g : Game) (u : String)
    (hver : g.game_state_cache.last_returned_game_state_version < g.game_state_version)
    (hkeys : ∀ e ∈ g.requested_directions, e.1 ∈ g.users)
    (hndk : (g.requested_directions.map Prod.fst).Nodup)
    (hndu : g.users.Nodup)
    (hu : u ∈ g.users)
    (hnv : ¬ u ∈ g.requested_directions.map Prod.fst) :
    g.into_game_state = some g.freshSnapshot ∧
    g.freshSnapshot.num_users = g.requested_directions.length ∧
    g.freshSnapshot.num_users < g.users.length := by
  refine ⟨into_game_state_fresh g hver, rfl, ?_⟩
  have hlen : g.freshSnapshot.num_users = (g.requested_directions.map Prod.fst).length := by
    simp [Game.freshSnapshot]
  rw [hlen]
  have hsub : (g.requested_directions.map Prod.fst).toFinset ⊆ g.users.toFinset := by
    intro x hx
    rw [List.mem_toFinset] at hx ⊢
    obtain ⟨e, he, rfl⟩ := List.mem_map.mp hx
    exact hkeys e he
  have hcard1 : (g.requested_directions.map Prod.fst).toFinset.card =
      (g.requested_directions.map Prod.fst).length := List.toFinset_card_of_nodup hndk
  have hcard2 : g.users.toFinset.card = g.users.length := List.toFinset_card_of_nodup hndu
  have hss : (g.requested_directions.map Prod.fst).toFinset ⊂ g.users.toFinset :=
    (Finset.ssubset_iff_of_subset hsub).mpr
      ⟨u, List.mem_toFinset.mpr hu, fun hmem => hnv (List.mem_toFinset.mp hmem)⟩
  have hlt := Finset.card_lt_card hss
  omega

/-- Witness for C10: alice joined gJoined and voted for nobody, so the
snapshot reports 0 players against a joined set of size 1. -/
theorem snapshot_num_users_counts_votes_check :
    gJoined.into_game_state = some gJoined.freshSnapshot ∧
    gJoined.freshSnapshot.num_users = gJoined.requested_directions.length ∧
    gJoined.freshSnapshot.num_users < gJoined.users.length :=
  snapshot_num_users_counts_votes gJoined uAlice (by decide) (by decide) (by decide)
    (by decide) (by decide) (by decide)
